import Mathlib

/-!
Shallow embedding of the GitRocket repository (git_ops.py, ui_components.py)
and proofs about the frozen specification claims.

Python strings are sequences of Unicode code points, modelled here as
`List Char`.  All functions are translated from the Python source:
`InteractiveDiffView._parse_hunks` / `_handle_apply_click` from
ui_components.py, and `GitRepository._run_command`, `validate_branch_name`,
`check_merge_status`, `get_changes_summary`, `get_branch_status`,
`get_file_diff`, `apply_patch`, `push` from git_ops.py.
-/

namespace GitRocket

/-- A Python string: a sequence of Unicode code points. -/
abbrev PyStr := List Char

/-- Embed a Lean string literal as a Python string (its code points). -/
def lit (s : String) : PyStr := s.data

/-! ## Python string primitives -/

/-- Python `s.split('\n')`: split on every newline; the empty string yields
one empty piece (`''.split('\n') == ['']`), and the result is never empty. -/
def splitNl : PyStr → List PyStr
  | [] => [[]]
  | c :: rest =>
    match splitNl rest with
    | [] => [[]]
    | h :: t => if c = '\n' then [] :: h :: t else (c :: h) :: t

/-- Python `'\n'.join(xs)`. -/
def joinNl : List PyStr → PyStr
  | [] => []
  | [l] => l
  | l :: ls => l ++ '\n' :: joinNl ls

/-- Python `str.isspace` on one character: true exactly on the Unicode
whitespace code points Python treats as spaces. -/
def pyIsSpace (c : Char) : Bool :=
  let n := c.toNat
  (9 ≤ n && n ≤ 13) || (28 ≤ n && n ≤ 32) || n == 133 || n == 160 ||
    n == 5760 || (8192 ≤ n && n ≤ 8202) || n == 8232 || n == 8233 ||
    n == 8239 || n == 8287 || n == 12288

/-- Python `s.strip()`: drop leading and trailing whitespace characters. -/
def pyStrip (l : PyStr) : PyStr :=
  ((l.dropWhile pyIsSpace).reverse.dropWhile pyIsSpace).reverse

/-- Python `sub in s` (substring containment). -/
def containsSub (sub : PyStr) : PyStr → Bool
  | [] => sub.isEmpty
  | c :: t => sub.isPrefixOf (c :: t) || containsSub sub t

/-- Decimal rendering of a natural number, for Python f-string interpolation
of a non-negative integer. -/
def natStr (n : Nat) : PyStr := (Nat.repr n).data

/-! ## Patch Engine (ui_components.py, `InteractiveDiffView`) -/

/-- The header loop of `_parse_hunks`: walk the lines, collecting lines into
`header_lines` until one starts with `"@@"`; `some t` returns the suffix
from that first hunk marker on (Python's `lines[line_idx:]` after a break),
`none` means no line starts with `"@@"` (Python leaves `line_idx = 0`). -/
def headerSplit : List PyStr → List PyStr × Option (List PyStr)
  | [] => ([], none)
  | line :: rest =>
    if (lit "@@").isPrefixOf line then ([], some (line :: rest))
    else (line :: (headerSplit rest).1, (headerSplit rest).2)

/-- The hunk-accumulation loop of `_parse_hunks`: `current` is Python's
`current_hunk`; a line starting with `"@@"` closes the current hunk (when
non-empty) and starts a new one; the final non-empty hunk is flushed. -/
def hunkLoop (current : List PyStr) : List PyStr → List PyStr
  | [] => if current.isEmpty then [] else [joinNl current]
  | line :: rest =>
    if (lit "@@").isPrefixOf line && !current.isEmpty then
      joinNl current :: hunkLoop [line] rest
    else
      hunkLoop (current ++ [line]) rest

/-- `InteractiveDiffView._parse_hunks`: split the diff text into lines,
take everything before the first `"@@"` line as the file header, and group
the remaining lines into hunks, each starting at a `"@@"` line.  Returns
`(parsed_hunks, file_header)` exactly like the source.  Note Python's
`if not lines: return [], ""` guard is kept although `split('\n')` never
produces an empty list. -/
def parse_hunks (diff_text : PyStr) : List PyStr × PyStr :=
  let lines := splitNl diff_text
  if lines.isEmpty then ([], [])
  else
    let p := headerSplit lines
    let file_header := joinNl p.1
    let tail := p.2.getD lines
    (hunkLoop [] tail, file_header)

/-- Serialization of a parsed diff as in `_handle_apply_click` with every
hunk chosen: `file_header + "\n" + "\n".join(hunks)`. -/
def serializeDoc (hunks : List PyStr) (file_header : PyStr) : PyStr :=
  file_header ++ '\n' :: joinNl hunks

/-- The `_build_view` emptiness test `if not hunk_strings`: true exactly
when the "No changes to display." branch is taken. -/
def build_view_shows_no_changes (diff_text : PyStr) : Bool :=
  (parse_hunks diff_text).1.isEmpty

/-- The selection comprehension of `_handle_apply_click`:
`[hunk_text for chk, hunk_text in self.hunks if chk.value]`, where each pair
is (checkbox value, hunk text) in the view's stored (original) order. -/
def selected_hunks (hunks : List (Bool × PyStr)) : List PyStr :=
  (hunks.filter fun p => p.1).map fun p => p.2

/-- `InteractiveDiffView._handle_apply_click`: `none` models the early
`return` on an empty selection (no patch built, `on_apply` not called);
otherwise the rebuilt patch text is passed on. -/
def handle_apply_click (file_header : PyStr) (hunks : List (Bool × PyStr)) :
    Option PyStr :=
  let sel := selected_hunks hunks
  if sel.isEmpty then none
  else some (file_header ++ '\n' :: joinNl sel)

/-! ## Command Executor and repository state (git_ops.py) -/

/-- `GitResult` from git_ops.py: `{success, stdout, stderr}`. -/
structure GitResult where
  success : Bool
  stdout : PyStr
  stderr : PyStr
deriving DecidableEq, Repr

/-- The mutable state of a `GitRepository` relevant to the claims:
the cached `in_merge_state` flag. -/
structure RepoState where
  in_merge_state : Bool
deriving DecidableEq, Repr

/-- What `subprocess.run` does on one invocation, as an oracle: it either
runs the process to completion (returning an exit code and raw captured
stdout/stderr), raises `TimeoutExpired`, raises `FileNotFoundError`
(git binary absent), or raises some other exception with message `msg`. -/
inductive SubprocessOutcome where
  | completed (returncode : Int) (stdout stderr : PyStr)
  | timedOut
  | fileNotFound
  | otherError (msg : PyStr)
deriving DecidableEq, Repr

/-- Everything observable about one `_run_command` call: the returned
`GitResult` (`none` models the re-raised `RuntimeError` of the
`FileNotFoundError` case), the repository state after the call, whether a
subprocess was spawned, and whether the security event was logged. -/
structure RunEffects where
  result : Option GitResult
  state : RepoState
  spawned : Bool
  securityLogged : Bool
deriving DecidableEq, Repr

/-- `GitRepository.check_merge_status`: re-derive `in_merge_state` from the
existence of the `.git/MERGE_HEAD` marker file (`merge_head_exists` is that
on-disk fact at the time of the check). -/
def check_merge_status (merge_head_exists : Bool) (_s : RepoState) : RepoState :=
  { in_merge_state := merge_head_exists }

/-- `GitRepository._run_command`.  The allow-list guard
`if not command or command[0] != 'git'` rejects without spawning; otherwise
the subprocess runs (per the `outcome` oracle).  On normal completion
`check_merge_status` runs before the return branches, both of which strip
stdout/stderr; on `TimeoutExpired` and on other exceptions the handlers
return directly, skipping `check_merge_status`; on `FileNotFoundError` a
`RuntimeError` is raised (`result := none`).  (The `command_list`
comprehension only drops empty tokens and stringifies; it does not affect
the modelled observables.) -/
def run_command (command : List PyStr) (outcome : SubprocessOutcome)
    (merge_head_exists : Bool) (s : RepoState) (timeout : Nat) : RunEffects :=
  match command with
  | [] =>
    { result := some ⟨false, [], lit "Security Error: Only 'git' commands are allowed"⟩
      state := s, spawned := false, securityLogged := true }
  | c :: _ =>
    if c ≠ lit "git" then
      { result := some ⟨false, [], lit "Security Error: Only 'git' commands are allowed"⟩
        state := s, spawned := false, securityLogged := true }
    else
      match outcome with
      | .completed rc out err =>
        let s' := check_merge_status merge_head_exists s
        if rc = 0 then
          { result := some ⟨true, pyStrip out, pyStrip err⟩
            state := s', spawned := true, securityLogged := false }
        else
          { result := some ⟨false, pyStrip out, pyStrip err⟩
            state := s', spawned := true, securityLogged := false }
      | .timedOut =>
        { result := some ⟨false, [],
            lit "Git operation timed out after " ++ natStr timeout ++ lit " seconds"⟩
          state := s, spawned := true, securityLogged := false }
      | .fileNotFound =>
        { result := none, state := s, spawned := false, securityLogged := false }
      | .otherError msg =>
        { result := some ⟨false, [], lit "An unexpected error occurred: " ++ msg⟩
          state := s, spawned := true, securityLogged := false }

/-- `GitRepository.get_file_diff`: build the diff command, run it, and
return the diff text on success or an error string built from stderr on
failure.  `none` models the propagated `RuntimeError` when git is absent. -/
def get_file_diff (file_path : PyStr) (staged : Bool)
    (outcome : SubprocessOutcome) (merge_head_exists : Bool) (s : RepoState) :
    Option PyStr :=
  let command := [lit "git", lit "diff", lit "--no-color"] ++
    (if staged then [lit "--cached"] else []) ++ [lit "--", file_path]
  let eff := run_command command outcome merge_head_exists s 30
  match eff.result with
  | some result =>
    some (if result.success then result.stdout
          else lit "Error getting diff:" ++ '\n' :: result.stderr)
  | none => none

/-- What `GitRepository.apply_patch` decides before any subprocess work:
an empty patch is rejected up front, otherwise `git apply --cached`
(optionally `--reverse`) would be run on the written patch file. -/
inductive ApplyAction where
  | rejected (r : GitResult)
  | runApply (patch_content : PyStr) (reverse : Bool)
deriving DecidableEq, Repr

/-- `GitRepository.apply_patch`'s guard: `if not patch_content: return
GitResult(success=False, stderr="No patch content provided.")`. -/
def apply_patch (patch_content : PyStr) (reverse : Bool) : ApplyAction :=
  if patch_content.isEmpty then
    .rejected ⟨false, [], lit "No patch content provided."⟩
  else
    .runApply patch_content reverse

/-! ## Branch-name validator (git_ops.py, `validate_branch_name`) -/

/-- `GitRepository.validate_branch_name`, translated check by check. -/
def validate_branch_name (b : PyStr) : Bool :=
  if b.isEmpty || b.length > 100 then false
  else if containsSub (lit "..") b || containsSub (lit ".lock") b ||
      containsSub (lit "@\x7b") b || containsSub (lit "\\") b then false
  else if (lit "-").isPrefixOf b || (lit ".").isSuffixOf b then false
  else if b.any (fun c => pyIsSpace c || c.toNat < 32 || c.toNat == 127) then false
  else if b.any (fun c => c == '~' || c == '^' || c == ':' || c == '?' ||
      c == '*' || c == '[') then false
  else true

/-! ## Change summary (git_ops.py, `get_changes_summary`) -/

/-- The staged-count comprehension predicate:
`line and line[0] not in (' ', '?')`. -/
def staged_line : PyStr → Bool
  | [] => false
  | c :: _ => c ≠ ' ' && c ≠ '?'

/-- The modified/new/deleted loop of `get_changes_summary`: empty lines are
skipped; `??` lines bump `new`; otherwise, on lines of length > 1, a
work-tree column (second character) of `M` bumps `modified` and `D` bumps
`deleted`. -/
def mnd_loop : List PyStr → Nat × Nat × Nat
  | [] => (0, 0, 0)
  | line :: rest =>
    let p := mnd_loop rest
    if line.isEmpty then p
    else if (lit "??").isPrefixOf line then (p.1, p.2.1 + 1, p.2.2)
    else
      match line with
      | _ :: c1 :: _ =>
        if c1 = 'M' then (p.1 + 1, p.2.1, p.2.2)
        else if c1 = 'D' then (p.1, p.2.1, p.2.2 + 1)
        else p
      | _ => p

/-- `GitRepository.get_changes_summary` on the porcelain status lines
(the `splitlines()` of a successful status query's stripped stdout):
returns `(modified, new, deleted, staged)`.  The early returns for a failed
query or an empty listing yield `(0, 0, 0, 0)`, which this definition also
produces on `[]`. -/
def get_changes_summary (status_lines : List PyStr) : Nat × Nat × Nat × Nat :=
  let staged := (status_lines.filter staged_line).length
  let p := mnd_loop status_lines
  (p.1, p.2.1, p.2.2, staged)

/-! ## Branch status (git_ops.py, `get_branch_status`) -/

/-- `GitRepository.get_branch_status` after the fetch and the two regex
searches on the porcelain-v2 status output: `branch` is
`get_current_branch()`, `status_success` the status query's success,
`upstream` the capture of `# branch.upstream (\S+)` when that search
matched, and `ahead_behind` the two numeric captures of
`# branch.ab \+(\d+) -(\d+)` when that search matched.  Returns the
`(message, name)` pair of the source, with its early returns encoded by
the first matching case. -/
def get_branch_status (branch : PyStr) (status_success : Bool)
    (upstream : Option PyStr) (ahead_behind : Option (Nat × Nat)) :
    PyStr × PyStr :=
  if !status_success then (lit "🌴 On branch " ++ branch, branch)
  else
    match upstream with
    | some u =>
      let early : Option (PyStr × PyStr) :=
        match ahead_behind with
        | some (ahead, behind) =>
          if ahead > 0 && behind > 0 then some (lit "🔀 Diverged from " ++ u, u)
          else if ahead > 0 then
            some (lit "🔼 " ++ natStr ahead ++ lit " commits ahead of " ++ u, u)
          else if behind > 0 then
            some (lit "🔽 " ++ natStr behind ++ lit " commits behind " ++ u, u)
          else none
        | none => none
      match early with
      | some r => r
      | none => (lit "✅ Up to date with " ++ u, u)
    | none => (lit "🌴 On branch " ++ branch ++ lit " (no upstream set)", branch)

/-! ## Push (git_ops.py, `push`) -/

/-- One remote's URLs as parsed by `get_remote_status`: the `fetch` and
`push` entries of the per-name dict, each present only if a matching
`remote -v` line was seen. -/
structure RemoteInfo where
  fetch : Option PyStr
  push : Option PyStr
deriving DecidableEq, Repr

/-- The precondition test of `push()`:
`'origin' not in remotes or 'push' not in remotes['origin']`. -/
def originPushMissing (remotes : List (PyStr × RemoteInfo)) : Bool :=
  match remotes.lookup (lit "origin") with
  | none => true
  | some info => info.push.isNone

/-- What one `push()` call decides: fail fast with a descriptive error
before any push command, or issue exactly one push command vector. -/
inductive PushAction where
  | failedNoOrigin (stderr : PyStr)
  | failedNoBranch (stderr : PyStr)
  | issue (command : List PyStr)
deriving DecidableEq, Repr

/-- `GitRepository.push` given the parsed remote map, the resolved current
branch (`get_current_branch()` returns `"UNKNOWN"` on failure) and whether
the upstream probe `git rev-parse --abbrev-ref <branch>@{u}` succeeded:
fail fast when no push-capable `origin` exists or the branch is unknown;
otherwise issue `git push --set-upstream origin <branch>` when there is no
upstream, and a plain `git push` when there is one. -/
def push (remotes : List (PyStr × RemoteInfo)) (current_branch : PyStr)
    (upstream_success : Bool) : PushAction :=
  if originPushMissing remotes then
    .failedNoOrigin (lit "No 'origin' remote configured for push or remote URL is missing.")
  else if current_branch = lit "UNKNOWN" then
    .failedNoBranch (lit "Could not determine the current branch.")
  else if !upstream_success then
    .issue [lit "git", lit "push", lit "--set-upstream", lit "origin", current_branch]
  else
    .issue [lit "git", lit "push"]

/-! ## Helper lemmas -/

theorem splitNl_cons_eq (c : Char) (rest : PyStr) (h : PyStr) (t : List PyStr)
    (hs : splitNl rest = h :: t) :
    splitNl (c :: rest) = if c = '\n' then [] :: h :: t else (c :: h) :: t := by
  unfold splitNl
  rw [hs]

theorem splitNl_ne_nil (l : PyStr) : splitNl l ≠ [] := by
  cases l with
  | nil => simp [splitNl]
  | cons c rest =>
    cases hs : splitNl rest with
    | nil =>
      unfold splitNl
      rw [hs]
      simp
    | cons h t =>
      rw [splitNl_cons_eq c rest h t hs]
      by_cases hc : c = '\n' <;> simp [hc]

theorem joinNl_cons_of_ne_nil (x : PyStr) (ls : List PyStr) (h : ls ≠ []) :
    joinNl (x :: ls) = x ++ '\n' :: joinNl ls := by
  cases ls with
  | nil => exact absurd rfl h
  | cons y ys => rfl

theorem joinNl_splitNl (l : PyStr) : joinNl (splitNl l) = l := by
  induction l with
  | nil => rfl
  | cons c rest ih =>
    cases hs : splitNl rest with
    | nil => exact absurd hs (splitNl_ne_nil rest)
    | cons h t =>
      rw [hs] at ih
      rw [splitNl_cons_eq c rest h t hs]
      by_cases hc : c = '\n'
      · rw [if_pos hc, hc, joinNl_cons_of_ne_nil _ _ (by simp), ih]
        rfl
      · rw [if_neg hc]
        cases t with
        | nil => simpa [joinNl] using ih
        | cons z zs =>
          rw [joinNl_cons_of_ne_nil _ _ (by simp)]
          rw [joinNl_cons_of_ne_nil _ _ (by simp)] at ih
          rw [← ih]
          simp

theorem joinNl_append (A B : List PyStr) (hA : A ≠ []) (hB : B ≠ []) :
    joinNl (A ++ B) = joinNl A ++ '\n' :: joinNl B := by
  induction A with
  | nil => exact absurd rfl hA
  | cons a as ih =>
    cases as with
    | nil =>
      simp only [List.singleton_append]
      rw [joinNl_cons_of_ne_nil _ _ hB]
      rfl
    | cons a' as' =>
      have h1 : (a' :: as') ++ B ≠ [] := by simp
      rw [List.cons_append, joinNl_cons_of_ne_nil _ _ h1,
        joinNl_cons_of_ne_nil _ _ (by simp), ih (by simp)]
      simp

theorem hunkLoop_ne_nil (ls : List PyStr) :
    ∀ current, current ≠ [] → hunkLoop current ls ≠ [] := by
  induction ls with
  | nil =>
    intro current hc
    simp [hunkLoop, List.isEmpty_iff, hc]
  | cons line rest ih =>
    intro current hc
    unfold hunkLoop
    split
    · simp
    · exact ih (current ++ [line]) (by simp)

theorem joinNl_hunkLoop (ls : List PyStr) :
    ∀ current, current ≠ [] → joinNl (hunkLoop current ls) = joinNl (current ++ ls) := by
  induction ls with
  | nil =>
    intro current hc
    rw [List.append_nil]
    have he : current.isEmpty = false := by simp [List.isEmpty_iff, hc]
    show joinNl (if current.isEmpty then [] else [joinNl current]) = joinNl current
    rw [he]
    rfl
  | cons line rest ih =>
    intro current hc
    unfold hunkLoop
    split
    · rw [joinNl_cons_of_ne_nil _ _ (hunkLoop_ne_nil rest [line] (by simp)),
        ih [line] (by simp), joinNl_append current (line :: rest) hc (by simp)]
      rfl
    · rw [ih (current ++ [line]) (by simp)]
      simp

theorem headerSplit_cons (line : PyStr) (rest : List PyStr) :
    headerSplit (line :: rest) =
      if (lit "@@").isPrefixOf line then ([], some (line :: rest))
      else (line :: (headerSplit rest).1, (headerSplit rest).2) := rfl

theorem hunkLoop_cons (current : List PyStr) (line : PyStr) (rest : List PyStr) :
    hunkLoop current (line :: rest) =
      if (lit "@@").isPrefixOf line && !current.isEmpty then
        joinNl current :: hunkLoop [line] rest
      else hunkLoop (current ++ [line]) rest := rfl

theorem headerSplit_spec (lines : List PyStr) :
    ∀ h t, headerSplit lines = (h, some t) →
      lines = h ++ t ∧ ∃ l0 tr, t = l0 :: tr ∧ (lit "@@").isPrefixOf l0 = true := by
  induction lines with
  | nil => intro h t hht; simp [headerSplit] at hht
  | cons line rest ih =>
    intro h t hht
    unfold headerSplit at hht
    by_cases hp : (lit "@@").isPrefixOf line = true
    · rw [if_pos hp] at hht
      simp only [Prod.mk.injEq, Option.some.injEq] at hht
      obtain ⟨h1, h2⟩ := hht
      subst h1
      subst h2
      exact ⟨by simp, line, rest, rfl, hp⟩
    · rw [if_neg hp] at hht
      simp only [Prod.mk.injEq] at hht
      obtain ⟨h1, h2⟩ := hht
      obtain ⟨hr, hex⟩ := ih (headerSplit rest).1 t (by rw [← h2])
      exact ⟨by rw [← h1, List.cons_append, ← hr], hex⟩

theorem headerSplit_isSome (lines : List PyStr)
    (h : lines.any (fun l => (lit "@@").isPrefixOf l) = true) :
    (headerSplit lines).2.isSome := by
  induction lines with
  | nil => simp at h
  | cons line rest ih =>
    unfold headerSplit
    by_cases hp : (lit "@@").isPrefixOf line = true
    · rw [if_pos hp]; rfl
    · rw [if_neg hp]
      simp only [List.any_cons, Bool.or_eq_true] at h
      exact ih (h.resolve_left (by simpa using hp))

theorem head?_dropWhile_not (p : α → Bool) (l : List α) :
    ∀ a, (l.dropWhile p).head? = some a → p a = false := by
  induction l with
  | nil => intro a h; simp at h
  | cons x xs ih =>
    intro a h
    rw [List.dropWhile_cons] at h
    by_cases hx : p x = true
    · rw [if_pos hx] at h; exact ih a h
    · rw [if_neg hx] at h
      simp only [List.head?_cons, Option.some.injEq] at h
      rw [← h]
      simpa using hx

theorem pyStrip_getLast_not_space (l : PyStr) (c : Char)
    (h : (pyStrip l).getLast? = some c) : pyIsSpace c = false := by
  unfold pyStrip at h
  rw [List.getLast?_reverse] at h
  exact head?_dropWhile_not pyIsSpace _ c h

/-! ## Claim theorems -/

/-- C1 (amended): for every diff text `D` whose first line does not begin
with `"@@"` and which contains at least one line beginning with `"@@"`,
concatenating the parsed fileHeader, one line break, and all parsed hunks
in their original order reproduces `D` exactly. -/
theorem diff_parse_serialize_roundtrip (D : PyStr)
    (h0 : (lit "@@").isPrefixOf (splitNl D).headI = false)
    (h1 : (splitNl D).any (fun l => (lit "@@").isPrefixOf l) = true) :
    serializeDoc (parse_hunks D).1 (parse_hunks D).2 = D := by
  obtain ⟨l0, rest, hl⟩ : ∃ l0 rest, splitNl D = l0 :: rest := by
    cases hs : splitNl D with
    | nil => exact absurd hs (splitNl_ne_nil D)
    | cons a b => exact ⟨a, b, rfl⟩
  have hP0 : (lit "@@").isPrefixOf l0 = false := by
    rw [hl] at h0
    simpa using h0
  have hsome : (headerSplit (splitNl D)).2.isSome := headerSplit_isSome _ h1
  obtain ⟨t, ht⟩ : ∃ t, (headerSplit (splitNl D)).2 = some t :=
    Option.isSome_iff_exists.mp hsome
  have hcons : headerSplit (splitNl D) =
      (l0 :: (headerSplit rest).1, (headerSplit rest).2) := by
    rw [hl, headerSplit_cons, if_neg (by simp [hP0])]
  have ht' : headerSplit (splitNl D) = ((headerSplit (splitNl D)).1, some t) := by
    rw [← ht]
  obtain ⟨hdecomp, tl0, tr, htl, hPt⟩ := headerSplit_spec (splitNl D) _ t ht'
  have hfst_ne : (headerSplit (splitNl D)).1 ≠ [] := by
    rw [hcons]
    simp
  have hparse : parse_hunks D =
      (hunkLoop [] t, joinNl (headerSplit (splitNl D)).1) := by
    unfold parse_hunks
    rw [if_neg (by simp [List.isEmpty_iff, splitNl_ne_nil D])]
    show (hunkLoop [] ((headerSplit (splitNl D)).2.getD (splitNl D)),
      joinNl (headerSplit (splitNl D)).1) = _
    rw [ht]
    rfl
  have hhunks : joinNl (hunkLoop [] t) = joinNl t := by
    rw [htl]
    have step : hunkLoop [] (tl0 :: tr) = hunkLoop [tl0] tr := by
      rw [hunkLoop_cons, if_neg (by simp)]
      rfl
    rw [step, joinNl_hunkLoop tr [tl0] (by simp)]
    rfl
  rw [hparse]
  unfold serializeDoc
  rw [hhunks, ← joinNl_append _ t hfst_ne (by rw [htl]; simp), ← hdecomp,
    joinNl_splitNl]

/-- C1 counterexample: on the diff text `"abc"`, which contains no hunk
marker, parsing puts every line into both the fileHeader and a single hunk,
so serialization doubles the text instead of reproducing it. -/
theorem diff_roundtrip_fails_without_marker :
    serializeDoc (parse_hunks (lit "abc")).1 (parse_hunks (lit "abc")).2 ≠
      lit "abc" := by decide

/-- Witness for C1 on a concrete well-formed diff text. -/
theorem diff_parse_serialize_roundtrip_witness :
    serializeDoc (parse_hunks (lit "hdr\n@@ -1 +1 @@\n+a")).1
      (parse_hunks (lit "hdr\n@@ -1 +1 @@\n+a")).2 = lit "hdr\n@@ -1 +1 @@\n+a" :=
  diff_parse_serialize_roundtrip (lit "hdr\n@@ -1 +1 @@\n+a") (by decide) (by decide)

/-- C2 (code bug): parsing the empty diff text does NOT yield an empty hunk
sequence: `''.split('\n')` is `['']`, so the dead `if not lines` guard never
fires and `_parse_hunks('')` returns one hunk holding the empty string;
consequently `_build_view` skips its "No changes to display." branch. -/
theorem parse_empty_diff_bug :
    parse_hunks [] = ([[]], []) ∧ build_view_shows_no_changes [] = false := by
  decide

/-- C3 (amended): after a Command Executor invocation in which the
subprocess ran to completion — whether it exited zero or nonzero —
`in_merge_state` has been re-derived from the merge-head marker's on-disk
existence; on a timeout, on any other invocation error, and on the
missing-executable path the exception handler returns (or re-raises)
without re-deriving it, so the previous cached value is left in place. -/
theorem merge_state_refresh_scope (rest : List PyStr) (rc : Int)
    (out err : PyStr) (merge_head_exists : Bool) (s : RepoState) (t : Nat) :
    (run_command (lit "git" :: rest) (.completed rc out err)
        merge_head_exists s t).state.in_merge_state = merge_head_exists
    ∧ (run_command (lit "git" :: rest) .timedOut merge_head_exists s t).state = s
    ∧ (∀ msg, (run_command (lit "git" :: rest) (.otherError msg)
        merge_head_exists s t).state = s)
    ∧ (run_command (lit "git" :: rest) .fileNotFound merge_head_exists s t).state = s := by
  refine ⟨?_, ?_, fun msg => ?_, ?_⟩ <;>
    simp only [run_command, check_merge_status, if_neg (by simp : ¬(lit "git" ≠ lit "git"))]
  split <;> rfl

/-- C3 counterexample: a timed-out `git status` leaves the stale cached
value `in_merge_state = true` in place although the merge-head marker does
not exist on disk, so a caller reading it right after the call does not
observe the current on-disk merge state. -/
theorem merge_state_stale_on_timeout :
    ¬ ((run_command [lit "git", lit "status", lit "--porcelain"]
        SubprocessOutcome.timedOut false { in_merge_state := true } 30).state.in_merge_state
      = false) := by decide

/-- C4: every command whose first token is not exactly `"git"` (including
the empty command) is rejected with a failed, security-tagged
`CommandResult`, the security event is logged, no subprocess is spawned,
and the repository state is untouched — regardless of what the subprocess
would have done. -/
theorem non_git_command_rejected (command : List PyStr)
    (outcome : SubprocessOutcome) (merge_head_exists : Bool) (s : RepoState)
    (t : Nat) (h : command.head? ≠ some (lit "git")) :
    (run_command command outcome merge_head_exists s t).result =
      some ⟨false, [], lit "Security Error: Only 'git' commands are allowed"⟩
    ∧ (run_command command outcome merge_head_exists s t).spawned = false
    ∧ (run_command command outcome merge_head_exists s t).securityLogged = true
    ∧ (run_command command outcome merge_head_exists s t).state = s := by
  cases command with
  | nil => exact ⟨rfl, rfl, rfl, rfl⟩
  | cons c cs =>
    have hc : c ≠ lit "git" := by
      intro he
      exact h (by rw [List.head?_cons, he])
    simp [run_command, hc]

/-- Witness for C4: the spec's example `["curl", "evil"]`. -/
theorem non_git_command_rejected_witness :
    (run_command [lit "curl", lit "evil"] (.completed 0 [] []) false
        ⟨false⟩ 30).result =
      some ⟨false, [], lit "Security Error: Only 'git' commands are allowed"⟩
    ∧ (run_command [lit "curl", lit "evil"] (.completed 0 [] []) false
        ⟨false⟩ 30).spawned = false
    ∧ (run_command [lit "curl", lit "evil"] (.completed 0 [] []) false
        ⟨false⟩ 30).securityLogged = true
    ∧ (run_command [lit "curl", lit "evil"] (.completed 0 [] []) false
        ⟨false⟩ 30).state = ⟨false⟩ :=
  non_git_command_rejected [lit "curl", lit "evil"] (.completed 0 [] []) false
    ⟨false⟩ 30 (by decide)

/-- C5: for any checkbox assignment on a view's hunks, a non-empty
selection rebuilds the patch as fileHeader + newline + the chosen hunks,
where the chosen hunks are a sublist of the document's hunks — i.e. they
keep their original relative order, which depends only on which checkboxes
are set, never on the order they were clicked — while an empty selection
returns without building a patch, and `apply_patch` independently rejects
an empty patch text. -/
theorem hunk_selection_order (file_header : PyStr)
    (hunks : List (Bool × PyStr)) :
    (selected_hunks hunks ≠ [] →
      handle_apply_click file_header hunks =
        some (file_header ++ '\n' :: joinNl (selected_hunks hunks))
      ∧ List.Sublist (selected_hunks hunks) (hunks.map fun p => p.2))
    ∧ (selected_hunks hunks = [] →
      handle_apply_click file_header hunks = none)
    ∧ apply_patch [] false =
        .rejected ⟨false, [], lit "No patch content provided."⟩ := by
  refine ⟨fun h => ⟨?_, ?_⟩, fun h => ?_, rfl⟩
  · have he : (selected_hunks hunks).isEmpty = false := by
      simp [List.isEmpty_iff, h]
    simp [handle_apply_click, he]
  · exact (List.filter_sublist hunks).map fun p => p.2
  · simp [handle_apply_click, h]

/-- Witness for C5: with the first and third hunks checked, the rebuilt
patch lists them in document order. -/
theorem hunk_selection_order_witness :
    handle_apply_click (lit "hdr")
        [(true, lit "@@ A"), (false, lit "@@ B"), (true, lit "@@ C")] =
      some (lit "hdr" ++ '\n' :: joinNl (selected_hunks
        [(true, lit "@@ A"), (false, lit "@@ B"), (true, lit "@@ C")]))
    ∧ List.Sublist
        (selected_hunks [(true, lit "@@ A"), (false, lit "@@ B"), (true, lit "@@ C")])
        ([(true, lit "@@ A"), (false, lit "@@ B"), (true, lit "@@ C")].map fun p => p.2) :=
  (hunk_selection_order (lit "hdr")
    [(true, lit "@@ A"), (false, lit "@@ B"), (true, lit "@@ C")]).1 (by decide)

theorem prefix_shape (pre u : PyStr) (h : pre.isPrefixOf u = true) :
    ∃ t, u = pre ++ t := by
  rw [List.isPrefixOf_iff_prefix] at h
  obtain ⟨t, ht⟩ := h
  exact ⟨t, ht.symm⟩

theorem staged_line_eq_claim (l : PyStr) :
    staged_line l = (!l.isEmpty && !(l.headI == ' ') && !(l.headI == '?')) := by
  cases l with
  | nil => rfl
  | cons c t =>
    by_cases h1 : c = ' ' <;> by_cases h2 : c = '?' <;>
      simp [staged_line, List.headI, h1, h2]

/-- C6: the staged count of the change summary equals the number of
non-empty status lines whose first character is neither a space nor `'?'`,
and prepending an untracked (`??`) line to any listing changes only the
`new` count — never `modified`, `deleted`, or `staged`. -/
theorem change_summary_counts (status_lines : List PyStr) :
    (get_changes_summary status_lines).2.2.2 =
      status_lines.countP (fun l => !l.isEmpty && !(l.headI == ' ') && !(l.headI == '?'))
    ∧ ∀ u, (lit "??").isPrefixOf u = true →
        (get_changes_summary (u :: status_lines)).1 =
          (get_changes_summary status_lines).1
        ∧ (get_changes_summary (u :: status_lines)).2.2.1 =
          (get_changes_summary status_lines).2.2.1
        ∧ (get_changes_summary (u :: status_lines)).2.1 =
          (get_changes_summary status_lines).2.1 + 1
        ∧ (get_changes_summary (u :: status_lines)).2.2.2 =
          (get_changes_summary status_lines).2.2.2 := by
  constructor
  · show (status_lines.filter staged_line).length = _
    rw [← List.countP_eq_length_filter]
    exact List.countP_congr fun l _ => by rw [staged_line_eq_claim l]
  · intro u hu
    obtain ⟨ur, hur⟩ := prefix_shape (lit "??") u hu
    have hu2 : u = '?' :: '?' :: ur := hur
    have hpre : (lit "??").isPrefixOf ('?' :: '?' :: ur) = true := by
      rw [← hu2]
      exact hu
    subst hu2
    have hst : staged_line ('?' :: '?' :: ur) = false := by
      simp [staged_line]
    refine ⟨?_, ?_, ?_, ?_⟩ <;>
      simp [get_changes_summary, mnd_loop, List.filter_cons, hst, hpre]

/-- Witness for C6 on a concrete porcelain listing and the untracked line
`"?? c"`. -/
theorem change_summary_counts_witness :
    ((get_changes_summary [lit "M  a", lit " M b"]).2.2.2 =
      [lit "M  a", lit " M b"].countP
        (fun l => !l.isEmpty && !(l.headI == ' ') && !(l.headI == '?')))
    ∧ ((get_changes_summary (lit "?? c" :: [lit "M  a", lit " M b"])).1 =
          (get_changes_summary [lit "M  a", lit " M b"]).1
      ∧ (get_changes_summary (lit "?? c" :: [lit "M  a", lit " M b"])).2.2.1 =
          (get_changes_summary [lit "M  a", lit " M b"]).2.2.1
      ∧ (get_changes_summary (lit "?? c" :: [lit "M  a", lit " M b"])).2.1 =
          (get_changes_summary [lit "M  a", lit " M b"]).2.1 + 1
      ∧ (get_changes_summary (lit "?? c" :: [lit "M  a", lit " M b"])).2.2.2 =
          (get_changes_summary [lit "M  a", lit " M b"]).2.2.2) :=
  ⟨(change_summary_counts [lit "M  a", lit " M b"]).1,
    (change_summary_counts [lit "M  a", lit " M b"]).2 (lit "?? c") (by decide)⟩

theorem dash_prefix_iff (b : PyStr) :
    (lit "-").isPrefixOf b = true ↔ ∃ t, b = '-' :: t := by
  constructor
  · intro h
    obtain ⟨t, ht⟩ := prefix_shape (lit "-") b h
    exact ⟨t, ht⟩
  · rintro ⟨t, rfl⟩
    simp [List.isPrefixOf, lit]

theorem dot_suffix_iff (b : PyStr) :
    (lit ".").isSuffixOf b = true ↔ b.getLast? = some '.' := by
  show (lit ".").reverse.isPrefixOf b.reverse = true ↔ _
  rw [show (lit ".").reverse = lit "." from rfl]
  constructor
  · intro h
    obtain ⟨t, ht⟩ := prefix_shape (lit ".") b.reverse h
    have : b.reverse.head? = some '.' := by rw [ht]; rfl
    rwa [List.head?_reverse] at this
  · intro h
    have hh : b.reverse.head? = some '.' := by rwa [List.head?_reverse]
    cases hr : b.reverse with
    | nil => rw [hr] at hh; simp at hh
    | cons c t =>
      rw [hr] at hh
      simp only [List.head?_cons, Option.some.injEq] at hh
      subst hh
      show List.isPrefixOf ('.' :: []) ('.' :: t) = true
      simp [List.isPrefixOf]

theorem guard1_iff (b : PyStr) :
    (b.isEmpty || decide (b.length > 100)) = true ↔ (b = [] ∨ 100 < b.length) := by
  simp [List.isEmpty_iff]

theorem guard2_iff (b : PyStr) :
    (containsSub (lit "..") b || containsSub (lit ".lock") b ||
      containsSub (lit "@\x7b") b || containsSub (lit "\\") b) = true ↔
    (containsSub (lit "..") b = true ∨ containsSub (lit ".lock") b = true ∨
      containsSub (lit "@\x7b") b = true ∨ containsSub (lit "\\") b = true) := by
  simp [Bool.or_eq_true, or_assoc]

theorem guard3_iff (b : PyStr) :
    ((lit "-").isPrefixOf b || (lit ".").isSuffixOf b) = true ↔
    ((∃ t, b = '-' :: t) ∨ b.getLast? = some '.') := by
  rw [Bool.or_eq_true, dash_prefix_iff, dot_suffix_iff]

theorem guard4_iff (b : PyStr) :
    (b.any fun c => pyIsSpace c || decide (c.toNat < 32) || (c.toNat == 127)) = true ↔
    (∃ c ∈ b, c.toNat < 32 ∨ c.toNat = 127 ∨ pyIsSpace c = true) := by
  rw [List.any_eq_true]
  constructor
  · rintro ⟨c, hc, hp⟩
    simp only [Bool.or_eq_true, decide_eq_true_eq, beq_iff_eq] at hp
    exact ⟨c, hc, by tauto⟩
  · rintro ⟨c, hc, hp⟩
    refine ⟨c, hc, ?_⟩
    simp only [Bool.or_eq_true, decide_eq_true_eq, beq_iff_eq]
    tauto

theorem guard5_iff (b : PyStr) :
    (b.any fun c => c == '~' || c == '^' || c == ':' || c == '?' ||
      c == '*' || c == '[') = true ↔
    (∃ c ∈ b, c = '~' ∨ c = '^' ∨ c = ':' ∨ c = '?' ∨ c = '*' ∨ c = '[') := by
  rw [List.any_eq_true]
  constructor
  · rintro ⟨c, hc, hp⟩
    simp only [Bool.or_eq_true, beq_iff_eq] at hp
    exact ⟨c, hc, by tauto⟩
  · rintro ⟨c, hc, hp⟩
    refine ⟨c, hc, ?_⟩
    simp only [Bool.or_eq_true, beq_iff_eq]
    tauto

/-- C7: the branch-name validator rejects a candidate exactly when it has
one of the unsafe shapes the spec lists: empty or longer than 100
characters; containing `".."`, `".lock"`, `"@{"`, or a backslash; starting
with `'-'` or ending with `'.'`; containing a control character (code
point below 32, or 127) or whitespace (Python `str.isspace`); or
containing one of `~ ^ : ? * [`.  In particular every name containing
`".."`, `"@{"`, a control character, or a leading `'-'` is rejected. -/
theorem branch_name_reject_iff (b : PyStr) :
    validate_branch_name b = false ↔
      (b = [] ∨ 100 < b.length
        ∨ containsSub (lit "..") b = true ∨ containsSub (lit ".lock") b = true
        ∨ containsSub (lit "@\x7b") b = true ∨ containsSub (lit "\\") b = true
        ∨ (∃ t, b = '-' :: t) ∨ b.getLast? = some '.'
        ∨ (∃ c ∈ b, c.toNat < 32 ∨ c.toNat = 127 ∨ pyIsSpace c = true)
        ∨ (∃ c ∈ b, c = '~' ∨ c = '^' ∨ c = ':' ∨ c = '?' ∨ c = '*' ∨ c = '[')) := by
  unfold validate_branch_name
  split_ifs with h1 h2 h3 h4 h5
  · exact iff_of_true rfl (by rw [guard1_iff] at h1; tauto)
  · exact iff_of_true rfl (by rw [guard2_iff] at h2; tauto)
  · exact iff_of_true rfl (by rw [guard3_iff] at h3; tauto)
  · refine iff_of_true rfl ?_
    rw [guard4_iff] at h4
    exact Or.inr (Or.inr (Or.inr (Or.inr (Or.inr (Or.inr (Or.inr (Or.inr
      (Or.inl h4))))))))
  · refine iff_of_true rfl ?_
    rw [guard5_iff] at h5
    exact Or.inr (Or.inr (Or.inr (Or.inr (Or.inr (Or.inr (Or.inr (Or.inr
      (Or.inr h5))))))))
  · refine iff_of_false (by simp) ?_
    rw [guard1_iff] at h1
    rw [guard2_iff] at h2
    rw [guard3_iff] at h3
    rw [guard4_iff] at h4
    rw [guard5_iff] at h5
    rintro (hc | hc | hc | hc | hc | hc | hc | hc | hc | hc)
    · exact h1 (Or.inl hc)
    · exact h1 (Or.inr hc)
    · exact h2 (Or.inl hc)
    · exact h2 (Or.inr (Or.inl hc))
    · exact h2 (Or.inr (Or.inr (Or.inl hc)))
    · exact h2 (Or.inr (Or.inr (Or.inr hc)))
    · exact h3 (Or.inl hc)
    · exact h3 (Or.inr hc)
    · exact h4 hc
    · exact h5 hc

/-- C8: given a successful status query, the branch-status computation
yields one of five mutually exclusive states chosen by precedence —
diverged when ahead>0 and behind>0, else ahead-only, else behind-only,
else up-to-date whenever an upstream is set (including when the
ahead/behind pair is absent), else no-upstream — and every upstream case
returns the resolved upstream name as the second component, embedded in
the phrase. -/
theorem branch_status_precedence (branch u : PyStr) (ahead behind : Nat) :
    (0 < ahead → 0 < behind →
      get_branch_status branch true (some u) (some (ahead, behind)) =
        (lit "🔀 Diverged from " ++ u, u))
    ∧ (0 < ahead → behind = 0 →
      get_branch_status branch true (some u) (some (ahead, behind)) =
        (lit "🔼 " ++ natStr ahead ++ lit " commits ahead of " ++ u, u))
    ∧ (ahead = 0 → 0 < behind →
      get_branch_status branch true (some u) (some (ahead, behind)) =
        (lit "🔽 " ++ natStr behind ++ lit " commits behind " ++ u, u))
    ∧ (ahead = 0 → behind = 0 →
      get_branch_status branch true (some u) (some (ahead, behind)) =
        (lit "✅ Up to date with " ++ u, u))
    ∧ get_branch_status branch true (some u) none =
        (lit "✅ Up to date with " ++ u, u)
    ∧ (∀ ab, get_branch_status branch true none ab =
        (lit "🌴 On branch " ++ branch ++ lit " (no upstream set)", branch)) := by
  refine ⟨fun ha hb => ?_, fun ha hb => ?_, fun ha hb => ?_, fun ha hb => ?_,
    rfl, fun ab => rfl⟩ <;>
    simp [get_branch_status, ha, hb]

/-- Witness for C8: the spec's sample ahead/behind combinations on branch
`"main"` with upstream `"origin/main"`. -/
theorem branch_status_precedence_witness :
    get_branch_status (lit "main") true (some (lit "origin/main")) (some (2, 2)) =
      (lit "🔀 Diverged from " ++ lit "origin/main", lit "origin/main")
    ∧ get_branch_status (lit "main") true (some (lit "origin/main")) (some (3, 0)) =
      (lit "🔼 " ++ natStr 3 ++ lit " commits ahead of " ++ lit "origin/main",
        lit "origin/main")
    ∧ get_branch_status (lit "main") true (some (lit "origin/main")) (some (0, 2)) =
      (lit "🔽 " ++ natStr 2 ++ lit " commits behind " ++ lit "origin/main",
        lit "origin/main")
    ∧ get_branch_status (lit "main") true (some (lit "origin/main")) (some (0, 0)) =
      (lit "✅ Up to date with " ++ lit "origin/main", lit "origin/main")
    ∧ get_branch_status (lit "main") true none none =
      (lit "🌴 On branch " ++ lit "main" ++ lit " (no upstream set)", lit "main") :=
  ⟨(branch_status_precedence (lit "main") (lit "origin/main") 2 2).1
      (by decide) (by decide),
    (branch_status_precedence (lit "main") (lit "origin/main") 3 0).2.1
      (by decide) rfl,
    (branch_status_precedence (lit "main") (lit "origin/main") 0 2).2.2.1
      rfl (by decide),
    (branch_status_precedence (lit "main") (lit "origin/main") 0 0).2.2.2.1
      rfl rfl,
    (branch_status_precedence (lit "main") (lit "origin/main") 0 0).2.2.2.2.2 none⟩

/-- C9: push fails fast with a descriptive error — issuing no push command
— when no push-capable remote named `"origin"` exists or the current
branch is unresolvable; otherwise it issues
`git push --set-upstream origin <branch>` when the branch has no upstream
tracking ref, and a plain `git push` when it has one. -/
theorem push_preconditions_and_upstream (remotes : List (PyStr × RemoteInfo))
    (current_branch : PyStr) (upstream_success : Bool) :
    (originPushMissing remotes = true →
      push remotes current_branch upstream_success =
        .failedNoOrigin
          (lit "No 'origin' remote configured for push or remote URL is missing."))
    ∧ (originPushMissing remotes = false → current_branch = lit "UNKNOWN" →
      push remotes current_branch upstream_success =
        .failedNoBranch (lit "Could not determine the current branch."))
    ∧ (originPushMissing remotes = false → current_branch ≠ lit "UNKNOWN" →
      push remotes current_branch false =
        .issue [lit "git", lit "push", lit "--set-upstream", lit "origin",
          current_branch])
    ∧ (originPushMissing remotes = false → current_branch ≠ lit "UNKNOWN" →
      push remotes current_branch true = .issue [lit "git", lit "push"]) := by
  refine ⟨fun h => ?_, fun h hb => ?_, fun h hb => ?_, fun h hb => ?_⟩ <;>
    simp [push, h]
  · simp [hb]
  · simp [hb]
  · simp [hb]

/-- Witness for C9: with a push-capable origin and current branch
`"feature-x"`, a missing upstream yields the upstream-setting push and a
present upstream yields a plain push; with no remotes at all push fails
fast. -/
theorem push_preconditions_and_upstream_witness :
    push [(lit "origin", ⟨some (lit "u"), some (lit "u")⟩)] (lit "feature-x") false =
      .issue [lit "git", lit "push", lit "--set-upstream", lit "origin",
        lit "feature-x"]
    ∧ push [(lit "origin", ⟨some (lit "u"), some (lit "u")⟩)] (lit "feature-x") true =
      .issue [lit "git", lit "push"]
    ∧ push [] (lit "feature-x") true =
      .failedNoOrigin
        (lit "No 'origin' remote configured for push or remote URL is missing.") :=
  ⟨(push_preconditions_and_upstream
      [(lit "origin", ⟨some (lit "u"), some (lit "u")⟩)] (lit "feature-x") false).2.2.1
      (by decide) (by decide),
    (push_preconditions_and_upstream
      [(lit "origin", ⟨some (lit "u"), some (lit "u")⟩)] (lit "feature-x") true).2.2.2
      (by decide) (by decide),
    (push_preconditions_and_upstream [] (lit "feature-x") true).1 (by decide)⟩

/-- C10: on every command that actually starts the subprocess and runs it
to completion, the returned result carries stdout and stderr stripped of
leading and trailing whitespace on both the success and the failure
branch; a stripped string never ends in a newline, and in particular the
diff text returned by a successful `get_file_diff` never ends in a
newline even when the underlying tool emitted one. -/
theorem run_command_strips_outputs (file_path : PyStr) (staged : Bool)
    (rest : List PyStr) (rc : Int) (out err : PyStr) (merge_head_exists : Bool)
    (s : RepoState) (t : Nat) :
    (∃ res, (run_command (lit "git" :: rest) (.completed rc out err)
        merge_head_exists s t).result = some res
      ∧ res.stdout = pyStrip out ∧ res.stderr = pyStrip err
      ∧ (res.success = true ↔ rc = 0))
    ∧ (pyStrip out).getLast? ≠ some '\n'
    ∧ (rc = 0 →
        get_file_diff file_path staged (.completed rc out err) merge_head_exists s =
          some (pyStrip out)) := by
  refine ⟨?_, ?_, fun hrc => ?_⟩
  · by_cases hrc : rc = 0
    · exact ⟨⟨true, pyStrip out, pyStrip err⟩,
        by simp [run_command, hrc], rfl, rfl, by simp [hrc]⟩
    · exact ⟨⟨false, pyStrip out, pyStrip err⟩,
        by simp [run_command, hrc], rfl, rfl, by simp [hrc]⟩
  · intro hlast
    have := pyStrip_getLast_not_space out '\n' hlast
    simp [pyIsSpace] at this
  · simp [get_file_diff, run_command, hrc]

/-- Witness for C10: a successful diff whose raw output ends in a newline
comes back stripped. -/
theorem run_command_strips_outputs_witness :
    get_file_diff (lit "a.txt") false
        (.completed 0 (lit "diff text\n") (lit "\n")) false ⟨false⟩ =
      some (pyStrip (lit "diff text\n"))
    ∧ (pyStrip (lit "diff text\n")).getLast? ≠ some '\n' :=
  ⟨(run_command_strips_outputs (lit "a.txt") false [lit "diff"] 0
      (lit "diff text\n") (lit "\n") false ⟨false⟩ 30).2.2 rfl,
    (run_command_strips_outputs (lit "a.txt") false [lit "diff"] 0
      (lit "diff text\n") (lit "\n") false ⟨false⟩ 30).2.1⟩

end GitRocket
